import Mathlib

/-!
Shallow embedding of the execution core of the kysely repository:
the `dropConstraintNode` AST factory (`src/operation-node/drop-constraint-node.ts`)
and the PostgreSQL driver (`src/dialect/postgres/postgres-driver.ts`):
`PostgresDriver.init / acquireConnection / destroy` and
`PostgresConnection.executeQuery / streamQuery`.

Native-client interactions (pool `connect`, client `connect`/`end`,
`query`, cursor `read`/`close`, the `onCreateConnection` hook and lazy
pool/client factories) are modelled as events recorded in a trace, so
that "called at most once" style properties become statements about
traces.  JavaScript numbers that may be non-integral (the `chunkSize`
argument) are modelled as rationals; `bigint` values as `Int`.
-/

/-! ## AST node model (`drop-constraint-node.ts`) -/

/-- The base `OperationNode` interface: every node carries a `kind`
discriminator string. -/
structure OperationNode where
  kind : String
  deriving DecidableEq, Repr

/-- Modelled from the spec: `identifier-node.ts` is not among the provided
source files; the spec says a drop-constraint node "holds exactly one child:
an identifier node naming the constraint".  An identifier node carries the
`IdentifierNode` kind tag and the identifier string. -/
structure IdentifierNode where
  kind : String
  identifier : String
  deriving DecidableEq, Repr

/-- Modelled from the spec: the factory for identifier nodes, producing the
(frozen, here intrinsically immutable) node that names `identifier`. -/
def identifierNode.create (identifier : String) : IdentifierNode :=
  ⟨"IdentifierNode", identifier⟩

/-- `DropConstraintNode`: kind tag plus exactly one child, the
`constraintName` identifier node. -/
structure DropConstraintNode where
  kind : String
  constraintName : IdentifierNode
  deriving DecidableEq, Repr

/-- `dropConstraintNode.is(node)`: discriminator check on the `kind` tag. -/
def dropConstraintNode.is (node : OperationNode) : Bool :=
  node.kind == "DropConstraintNode"

/-- `dropConstraintNode.create(constraintName)`: builds the frozen node
(immutability is intrinsic in this embedding) with the identifier child. -/
def dropConstraintNode.create (constraintName : String) : DropConstraintNode :=
  ⟨"DropConstraintNode", identifierNode.create constraintName⟩

/-! ## `PostgresConnection.executeQuery` -/

/-- The shape of the native `pg` client's query result:
`{ command, rowCount, rows }`.  `rows` is `Option`al to model the
`result.rows ?? []` guard in the source. -/
structure PgCommandResult (O : Type) where
  command : String
  rowCount : Int
  rows : Option (List O)
  deriving DecidableEq, Repr

/-- Kysely's `QueryResult`: the affected-row counts are `bigint`s
(unbounded integers here), present only for mutating commands. -/
structure QueryResult (O : Type) where
  numUpdatedOrDeletedRows : Option Int
  numAffectedRows : Option Int
  rows : List O
  deriving DecidableEq, Repr

/-- `PostgresConnection.executeQuery`, success path: classify the native
result by its reported command.  For `INSERT`/`UPDATE`/`DELETE` the result
carries `BigInt(result.rowCount)` in both count fields together with
`result.rows ?? []`; otherwise only the rows. -/
def PostgresConnection.executeQuery {O : Type} (result : PgCommandResult O) :
    QueryResult O :=
  if result.command = "INSERT" ∨ result.command = "UPDATE" ∨
      result.command = "DELETE" then
    ⟨some result.rowCount, some result.rowCount, result.rows.getD []⟩
  else
    ⟨none, none, result.rows.getD []⟩

/-! ## `PostgresConnection.streamQuery`

The async generator is modelled as a function from the consumer's
behaviour (`budget` = how many batches the consumer is willing to take
before abandoning the iteration, `none` = consume everything) and the
cursor's behaviour (the rows it holds, and `failAt` = the index of the
read that throws, if any) to the observable outcome: the yielded batches,
the trace of native-client operations, and the surfaced error. -/

/-- A native-client operation performed during streaming. -/
inductive ClientOp
  | query
  | read (requested : Nat) (returned : Nat)
  | readFail (requested : Nat)
  | close
  deriving DecidableEq, Repr

/-- The errors `streamQuery` can surface. -/
inductive StreamError
  | missingCursor
  | invalidChunkSize
  | readFailure
  deriving DecidableEq, Repr

/-- Observable outcome of one `streamQuery` iteration. -/
structure StreamOutcome (α : Type) where
  batches : List (List α)
  ops : List ClientOp
  error : Option StreamError
  deriving DecidableEq, Repr

/-- The `while (true)` loop of `streamQuery`, inside `try ... finally
await cursor.close()`: read up to `chunk` rows; a read that throws runs the
`finally` (close) and surfaces the error; a zero-row read breaks out of the
loop into the `finally`; otherwise the batch is yielded and, when the
consumer stops there (`budget = some 1`), the generator's `return` runs the
`finally`; else the loop continues. -/
def streamLoop {α : Type} (chunk : Nat) (failAt : Option Nat)
    (remaining : List α) (budget : Option Nat) (readIdx : Nat) :
    StreamOutcome α :=
  if failAt = some readIdx then
    ⟨[], [ClientOp.readFail chunk, ClientOp.close], some StreamError.readFailure⟩
  else if h : (remaining.take chunk).isEmpty then
    ⟨[], [ClientOp.read chunk 0, ClientOp.close], none⟩
  else if budget = some 1 then
    ⟨[remaining.take chunk],
     [ClientOp.read chunk (remaining.take chunk).length, ClientOp.close], none⟩
  else
    let rest := streamLoop chunk failAt (remaining.drop chunk)
      (Option.map (fun n => n - 1) budget) (readIdx + 1)
    ⟨remaining.take chunk :: rest.batches,
     ClientOp.read chunk (remaining.take chunk).length :: rest.ops,
     rest.error⟩
  termination_by remaining.length
  decreasing_by
    have hr : remaining ≠ [] := by
      intro he
      exact h (by simp [he, List.isEmpty_iff])
    have hc : chunk ≠ 0 := by
      intro he
      exact h (by simp [he, List.isEmpty_iff])
    simp only [List.length_drop]
    exact Nat.sub_lt (List.length_pos.mpr hr) (Nat.pos_of_ne_zero hc)

/-- `PostgresConnection.streamQuery`.  As an async generator its body only
runs once the consumer first awaits it, so a consumer that never starts
(`budget = some 0`) observes nothing; otherwise the cursor-capability check
and the `chunkSize` validation run, in source order, before the native
`query` call that opens the cursor, and then the read loop. -/
def PostgresConnection.streamQuery {α : Type} (hasCursor : Bool)
    (chunkSize : ℚ) (rows : List α) (budget : Option Nat)
    (failAt : Option Nat) : StreamOutcome α :=
  if budget = some 0 then
    ⟨[], [], none⟩
  else if hasCursor = false then
    ⟨[], [], some StreamError.missingCursor⟩
  else if ¬(chunkSize.isInt ∧ 0 < chunkSize) then
    ⟨[], [], some StreamError.invalidChunkSize⟩
  else
    let res := streamLoop chunkSize.num.toNat failAt rows budget 0
    ⟨res.batches, ClientOp.query :: res.ops, res.error⟩

/-- Second definition, following the spec's words, for the refinement claim
about batch shapes: "repeatedly reads up to `chunkSize` rows per step,
yielding one result batch per non-empty read; terminates the sequence on
the first read that returns zero rows".  (The `c = 0` guard is only for
totality; the spec requires `c` positive.) -/
def specChunks {α : Type} (c : Nat) (l : List α) : List (List α) :=
  if l.isEmpty ∨ c = 0 then []
  else l.take c :: specChunks c (l.drop c)
  termination_by l.length
  decreasing_by
    rename_i h
    push_neg at h
    have hr : l ≠ [] := by
      intro he
      exact absurd (by simp [he]) h.1
    simp only [List.length_drop]
    exact Nat.sub_lt (List.length_pos.mpr hr) (Nat.pos_of_ne_zero h.2)

/-! ## `PostgresDriver`: connection lifecycle state machine

Native handles (pool clients, the single client, the pool itself) are
identified by natural numbers; connection wrappers by the `Nat` id
allocated from `nextConnId` at creation (so "same wrapper instance"
is "same id").  Each operation returns the successor state together with
the list of native-side events it caused, in order. -/

/-- An observable native-side event of a driver operation. -/
inductive DriverEvent
  | factoryCall
  | clientConnect
  | poolConnect (client : Nat)
  | onCreate (client : Nat) (conn : Nat)
  | clientEnd (client : Nat)
  | poolEnd (pool : Nat)
  deriving DecidableEq, Repr

/-- The `pool` / `client` configuration field: either a handle value or a
zero-argument factory lazily producing one (invoking it is an event). -/
inductive ResourceConfig
  | value (handle : Nat)
  | factory (handle : Nat)
  deriving DecidableEq, Repr

/-- Resolve a resource: `isFunction(x) ? await x() : x`. -/
def ResourceConfig.resolve : ResourceConfig → Nat × List DriverEvent
  | .value h => (h, [])
  | .factory h => (h, [DriverEvent.factoryCall])

/-- The handle a resource resolves to. -/
def ResourceConfig.handle : ResourceConfig → Nat
  | .value h => h
  | .factory h => h

/-- `PostgresDialectPoolConfig | PostgresDialectClientConfig`: the mode is
decided by which of `pool`/`client` is present (`isPoolConfig`).  Only the
pool config carries the optional `onCreateConnection` hook. -/
inductive PgConfig
  | poolCfg (pool : ResourceConfig) (onCreateConnection : Bool)
  | clientCfg (client : ResourceConfig)
  deriving DecidableEq, Repr

/-- The driver's private mutable fields: `#pool`, `#singleClient`,
`#singleConnection`, and the `#connections` weak map (modelled as an
association list from pool-client handle to wrapper id, newest first;
entries are only ever added for absent keys).  `nextConnId` is the
allocator for fresh wrapper identities. -/
structure DriverState where
  pool : Option Nat
  singleClient : Option Nat
  singleConnection : Option Nat
  connections : List (Nat × Nat)
  nextConnId : Nat
  deriving DecidableEq, Repr

/-- The state of a freshly constructed driver. -/
def initState : DriverState :=
  ⟨none, none, none, [], 0⟩

/-- The wrapper id associated to a native pool-client handle, if any
(`this.#connections.get(client)`). -/
def lookupConn (s : DriverState) (client : Nat) : Option Nat :=
  s.connections.lookup client

/-- `PostgresDriver.init`: in pool mode resolve the pool (invoking the
factory if the config holds one); in client mode do nothing. -/
def PostgresDriver.init (cfg : PgConfig) (s : DriverState) :
    DriverState × List DriverEvent :=
  match cfg with
  | .poolCfg p _ =>
      (⟨some p.resolve.1, s.singleClient, s.singleConnection,
        s.connections, s.nextConnId⟩, p.resolve.2)
  | .clientCfg _ => (s, [])

/-- Result of one successful `acquireConnection` call: successor state,
the returned wrapper id, and the native events in order. -/
structure AcqResult where
  state : DriverState
  conn : Nat
  events : List DriverEvent
  deriving DecidableEq, Repr

/-- `PostgresDriver.acquireConnection`.  In client mode: if no single
connection is cached yet, resolve the client (factory if lazy), connect,
wrap and cache it; otherwise return the cached wrapper.  In pool mode:
`await this.#pool!.connect()` hands out a client handle (supplied here as
the `poolClient` oracle argument; `none` models the crash when `#pool` is
unset); an existing wrapper for that handle is returned as is, otherwise a
fresh wrapper is created, registered, and the `onCreateConnection` hook
(when configured) fires for it. -/
def PostgresDriver.acquireConnection (cfg : PgConfig) (poolClient : Nat)
    (s : DriverState) : Option AcqResult :=
  match cfg with
  | .clientCfg cc =>
      match s.singleConnection with
      | some conn => some ⟨s, conn, []⟩
      | none =>
          some ⟨⟨s.pool, some cc.resolve.1, some s.nextConnId,
                 s.connections, s.nextConnId + 1⟩,
                s.nextConnId,
                cc.resolve.2 ++ [DriverEvent.clientConnect]⟩
  | .poolCfg _ onC =>
      match s.pool with
      | none => none
      | some _ =>
          match s.connections.lookup poolClient with
          | some conn => some ⟨s, conn, [DriverEvent.poolConnect poolClient]⟩
          | none =>
              some ⟨⟨s.pool, s.singleClient, s.singleConnection,
                     (poolClient, s.nextConnId) :: s.connections,
                     s.nextConnId + 1⟩,
                    s.nextConnId,
                    DriverEvent.poolConnect poolClient ::
                      (if onC then [DriverEvent.onCreate poolClient s.nextConnId]
                       else [])⟩

/-- `PostgresDriver.destroy`: `if (this.#singleClient) await end()` —
leaving every field, `#singleClient` included, in place — `else if
(this.#pool)` clear `#pool` first, then `end()` the saved handle. -/
def PostgresDriver.destroy (s : DriverState) : DriverState × List DriverEvent :=
  match s.singleClient with
  | some c => (s, [DriverEvent.clientEnd c])
  | none =>
      match s.pool with
      | some p =>
          (⟨none, s.singleClient, s.singleConnection, s.connections,
            s.nextConnId⟩, [DriverEvent.poolEnd p])
      | none => (s, [])

/-- Outcome of a sequence of `acquireConnection` calls: final state, the
wrapper ids returned per call, and the concatenated event trace. -/
structure RunResult where
  state : DriverState
  conns : List Nat
  events : List DriverEvent
  deriving DecidableEq, Repr

/-- Run `acquireConnection` once per entry of `handles` (each entry is the
pool-client handle the pool hands out for that call; ignored in client
mode).  A crashed acquisition (pool mode before `init`) stops the run. -/
def runAcquires (cfg : PgConfig) (handles : List Nat) (s : DriverState) :
    RunResult :=
  match handles with
  | [] => ⟨s, [], []⟩
  | h :: t =>
      match PostgresDriver.acquireConnection cfg h s with
      | none => ⟨s, [], []⟩
      | some a =>
          let r := runAcquires cfg t a.state
          ⟨r.state, a.conn :: r.conns, a.events ++ r.events⟩

/-- Does this event record the `onCreateConnection` hook firing for the
native handle `client`? -/
def isOnCreateFor (client : Nat) : DriverEvent → Bool
  | .onCreate c _ => c == client
  | _ => false

/-! ## Lemmas about the streaming loop -/

/-- The cursor-operation trace of the read loop always ends in a single
`close`: whichever way the iteration ends (failing read, zero-row read,
consumer stop, or recursion), the `finally` block contributes exactly the
final `close`. -/
theorem streamLoop_ops_shape {α : Type} (chunk : Nat) (failAt : Option Nat)
    (remaining : List α) (budget : Option Nat) (readIdx : Nat) :
    ∃ pre, (streamLoop chunk failAt remaining budget readIdx).ops
        = pre ++ [ClientOp.close] ∧ ClientOp.close ∉ pre := by
  induction remaining, budget, readIdx using streamLoop.induct chunk failAt with
  | case1 remaining budget readIdx hf =>
      refine ⟨[ClientOp.readFail chunk], ?_, by simp⟩
      rw [streamLoop.eq_def]
      simp [hf]
  | case2 remaining budget readIdx hf he =>
      refine ⟨[ClientOp.read chunk 0], ?_, by simp⟩
      rw [streamLoop.eq_def]
      simp [hf, he]
  | case3 remaining readIdx hf he =>
      refine ⟨[ClientOp.read chunk (remaining.take chunk).length], ?_, by simp⟩
      rw [streamLoop.eq_def]
      simp [hf, he]
  | case4 remaining budget readIdx hf he hb ih =>
      obtain ⟨pre, hpre, hmem⟩ := ih
      refine ⟨ClientOp.read chunk (remaining.take chunk).length :: pre, ?_, ?_⟩
      · rw [streamLoop.eq_def]
        simp only [if_neg hf, dif_neg he, if_neg hb]
        simp [hpre]
      · simp [hmem]

/-- With an error-free cursor and a consumer that exhausts the stream, the
read loop yields exactly the successive `chunk`-sized slices of the rows
and surfaces no error. -/
theorem streamLoop_exhaust {α : Type} (chunk : Nat) (remaining : List α)
    (readIdx : Nat) :
    (streamLoop chunk none remaining none readIdx).batches
        = specChunks chunk remaining ∧
    (streamLoop chunk none remaining none readIdx).error = none := by
  generalize hn : remaining.length = n
  induction n using Nat.strong_induction_on generalizing remaining readIdx with
  | _ n ih =>
    subst hn
    rw [streamLoop.eq_def, specChunks.eq_def]
    by_cases he : (remaining.take chunk).isEmpty
    · have hor : remaining.isEmpty = true ∨ chunk = 0 := by
        rcases List.take_eq_nil_iff.mp (List.isEmpty_iff.mp he) with h | h
        · exact Or.inr h
        · exact Or.inl (List.isEmpty_iff.mpr h)
      have h1 : ¬(none : Option Nat) = some readIdx := by simp
      simp only [if_neg h1, dif_pos he, if_pos hor]
      simp
    · have hor : ¬(remaining.isEmpty = true ∨ chunk = 0) := by
        intro h
        apply he
        rcases h with h | h
        · simp [List.isEmpty_iff.mp h]
        · simp [h]
      have hr : remaining ≠ [] := by
        intro h2
        exact hor (Or.inl (by simp [h2]))
      have hc : chunk ≠ 0 := by
        intro h2
        exact hor (Or.inr h2)
      have hlt : (remaining.drop chunk).length < remaining.length := by
        simp only [List.length_drop]
        exact Nat.sub_lt (List.length_pos.mpr hr) (Nat.pos_of_ne_zero hc)
      have := ih _ hlt (remaining.drop chunk) (readIdx + 1) rfl
      simp only [if_neg (by simp : ¬(none : Option Nat) = some readIdx), dif_neg he,
        if_neg (by simp : ¬(none : Option Nat) = some 1), if_neg hor]
      constructor
      · simp [this.1]
      · simp [this.2]

/-- Every batch produced by the spec-side chunking is non-empty and holds
at most `c` rows. -/
theorem specChunks_mem {α : Type} (c : Nat) (l : List α) (b : List α)
    (hb : b ∈ specChunks c l) : b ≠ [] ∧ b.length ≤ c := by
  induction l using specChunks.induct c with
  | case1 l h =>
      rw [specChunks.eq_def, if_pos h] at hb
      simp at hb
  | case2 l h ih =>
      rw [specChunks.eq_def] at hb
      rw [if_neg h] at hb
      push_neg at h
      rcases List.mem_cons.mp hb with h2 | h2
      · subst h2
        refine ⟨?_, by simp⟩
        have hr : l ≠ [] := by
          intro he
          exact absurd (by simp [he]) h.1
        simp [List.take_eq_nil_iff, hr, h.2]
      · exact ih h2


/-! ## Lemmas about the driver state machine -/

/-- In client mode, an acquisition that finds the cached wrapper returns it
unchanged with no native events. -/
theorem acquire_client_cached (cc : ResourceConfig) (h : Nat) (s : DriverState)
    (conn : Nat) (hsc : s.singleConnection = some conn) :
    PostgresDriver.acquireConnection (.clientCfg cc) h s = some ⟨s, conn, []⟩ := by
  unfold PostgresDriver.acquireConnection
  rw [hsc]

/-- In client mode, once the single wrapper is cached every further
acquisition returns it, with no native events at all. -/
theorem runAcquires_client_cached (cc : ResourceConfig) (handles : List Nat)
    (s : DriverState) (conn : Nat) (hsc : s.singleConnection = some conn) :
    runAcquires (.clientCfg cc) handles s
      = ⟨s, List.replicate handles.length conn, []⟩ := by
  induction handles with
  | nil => rfl
  | cons h t ih =>
      unfold runAcquires
      rw [acquire_client_cached cc h s conn hsc]
      simp [ih, List.replicate_succ]

/-- Case analysis for a pool-mode acquisition from a state whose pool is
resolved: either the handle already has a wrapper (returned unchanged, no
hook), or a fresh wrapper is registered and the hook fires for it. -/
theorem acquire_pool_cases (pc : ResourceConfig) (onC : Bool) (h : Nat)
    (s : DriverState) (p0 : Nat) (hp : s.pool = some p0) :
    (∃ conn, s.connections.lookup h = some conn ∧
       PostgresDriver.acquireConnection (.poolCfg pc onC) h s
         = some ⟨s, conn, [DriverEvent.poolConnect h]⟩) ∨
    (s.connections.lookup h = none ∧
       PostgresDriver.acquireConnection (.poolCfg pc onC) h s
         = some ⟨⟨s.pool, s.singleClient, s.singleConnection,
                  (h, s.nextConnId) :: s.connections, s.nextConnId + 1⟩,
                 s.nextConnId,
                 DriverEvent.poolConnect h ::
                   (if onC then [DriverEvent.onCreate h s.nextConnId]
                    else [])⟩) := by
  unfold PostgresDriver.acquireConnection
  rw [hp]
  cases hl : s.connections.lookup h with
  | some conn => exact Or.inl ⟨conn, rfl, rfl⟩
  | none => exact Or.inr ⟨rfl, rfl⟩

/-- A pool-mode run from a resolved-pool state preserves the pool handle,
the absence of a single client, and the length correspondence between
acquisitions and returned wrappers. -/
theorem runAcquires_pool_preserves (pc : ResourceConfig) (onC : Bool)
    (handles : List Nat) (s : DriverState) (p0 : Nat) (hp : s.pool = some p0) :
    (runAcquires (.poolCfg pc onC) handles s).state.pool = some p0 ∧
    (runAcquires (.poolCfg pc onC) handles s).state.singleClient
        = s.singleClient ∧
    (runAcquires (.poolCfg pc onC) handles s).conns.length = handles.length := by
  induction handles generalizing s with
  | nil => exact ⟨hp, rfl, rfl⟩
  | cons h t ih =>
      rcases acquire_pool_cases pc onC h s p0 hp with
        ⟨conn, hl, heq⟩ | ⟨hl, heq⟩
      · unfold runAcquires
        rw [heq]
        have := ih s hp
        simp [this.1, this.2.1, this.2.2]
      · unfold runAcquires
        rw [heq]
        have := ih ⟨s.pool, s.singleClient, s.singleConnection,
          (h, s.nextConnId) :: s.connections, s.nextConnId + 1⟩ (by simpa using hp)
        simp [this.1, this.2.1, this.2.2]

/-- A pool-mode run never changes an existing handle-to-wrapper
association: the weak map only gains entries for absent keys. -/
theorem runAcquires_lookup_mono (pc : ResourceConfig) (onC : Bool)
    (handles : List Nat) (s : DriverState) (p0 : Nat) (hp : s.pool = some p0)
    (h : Nat) (conn : Nat) (hl : s.connections.lookup h = some conn) :
    (runAcquires (.poolCfg pc onC) handles s).state.connections.lookup h
      = some conn := by
  induction handles generalizing s with
  | nil => exact hl
  | cons h0 t ih =>
      rcases acquire_pool_cases pc onC h0 s p0 hp with
        ⟨conn0, hl0, heq⟩ | ⟨hl0, heq⟩
      · unfold runAcquires
        rw [heq]
        exact ih s hp hl
      · unfold runAcquires
        rw [heq]
        have hne : h ≠ h0 := by
          intro hhh
          rw [hhh, hl0] at hl
          exact Option.noConfusion hl
        refine ih _ (by simpa using hp) ?_
        simpa [List.lookup_cons, beq_false_of_ne hne] using hl

/-- Each wrapper id returned by a pool-mode run is exactly the final
weak-map association of the handle the pool handed out for that call. -/
theorem runAcquires_conns_eq_lookup (pc : ResourceConfig) (onC : Bool)
    (handles : List Nat) (s : DriverState) (p0 : Nat) (hp : s.pool = some p0)
    (i : Nat) :
    (runAcquires (.poolCfg pc onC) handles s).conns[i]?
      = (handles[i]?).bind
          (fun h =>
            (runAcquires (.poolCfg pc onC) handles s).state.connections.lookup h) := by
  induction handles generalizing s i with
  | nil => simp [runAcquires]
  | cons h0 t ih =>
      rcases acquire_pool_cases pc onC h0 s p0 hp with
        ⟨conn0, hl0, heq⟩ | ⟨hl0, heq⟩
      · unfold runAcquires
        rw [heq]
        cases i with
        | zero =>
            simp only [List.getElem?_cons_zero, Option.bind]
            exact (runAcquires_lookup_mono pc onC t s p0 hp h0 conn0 hl0).symm
        | succ i2 =>
            simp only [List.getElem?_cons_succ]
            exact ih s hp i2
      · unfold runAcquires
        rw [heq]
        cases i with
        | zero =>
            simp only [List.getElem?_cons_zero, Option.bind]
            have hl1 : ((h0, s.nextConnId) :: s.connections).lookup h0
                = some s.nextConnId := by
              simp [List.lookup_cons]
            exact (runAcquires_lookup_mono pc onC t _ p0 (by simpa using hp)
              h0 s.nextConnId hl1).symm
        | succ i2 =>
            simp only [List.getElem?_cons_succ]
            exact ih _ (by simpa using hp) i2

/-- The `onCreateConnection` hook fires during a pool-mode run at most once
for a given native handle, and not at all when the handle already had a
wrapper when the run started. -/
theorem runAcquires_onCreate_bound (pc : ResourceConfig) (onC : Bool)
    (handles : List Nat) (s : DriverState) (p0 : Nat) (hp : s.pool = some p0)
    (h : Nat) :
    ((runAcquires (.poolCfg pc onC) handles s).events.countP (isOnCreateFor h))
      ≤ if (s.connections.lookup h).isSome then 0 else 1 := by
  induction handles generalizing s with
  | nil =>
      simp [runAcquires]
  | cons h0 t ih =>
      rcases acquire_pool_cases pc onC h0 s p0 hp with
        ⟨conn0, hl0, heq⟩ | ⟨hl0, heq⟩
      · unfold runAcquires
        rw [heq]
        simp only [List.countP_append]
        have hc0 : ([DriverEvent.poolConnect h0].countP (isOnCreateFor h)) = 0 := by
          simp [isOnCreateFor]
        simp only [hc0, Nat.zero_add]
        exact ih s hp
      · unfold runAcquires
        rw [heq]
        simp only [List.countP_append]
        by_cases hhe : h = h0
        · subst hhe
          have hstep : ((DriverEvent.poolConnect h ::
              (if onC then [DriverEvent.onCreate h s.nextConnId] else [])).countP
                (isOnCreateFor h)) ≤ 1 := by
            cases onC <;> simp [isOnCreateFor]
          have hrest : ((runAcquires (.poolCfg pc onC) t
              ⟨s.pool, s.singleClient, s.singleConnection,
               (h, s.nextConnId) :: s.connections,
               s.nextConnId + 1⟩).events.countP (isOnCreateFor h)) = 0 := by
            have := ih ⟨s.pool, s.singleClient, s.singleConnection,
              (h, s.nextConnId) :: s.connections, s.nextConnId + 1⟩
              (by simpa using hp)
            have hl1 : (((h, s.nextConnId) :: s.connections).lookup h).isSome := by
              simp [List.lookup_cons]
            simpa [hl1] using this
          rw [hl0]
          simp only [Option.isSome_none, Bool.false_eq_true, if_false]
          omega
        · have hstep : ((DriverEvent.poolConnect h0 ::
              (if onC then [DriverEvent.onCreate h0 s.nextConnId] else [])).countP
                (isOnCreateFor h)) = 0 := by
            cases onC <;> simp [isOnCreateFor, beq_false_of_ne (Ne.symm hhe)]
          have hlook : (((h0, s.nextConnId) :: s.connections).lookup h)
              = s.connections.lookup h := by
            simp [List.lookup_cons, beq_false_of_ne hhe]
          have := ih ⟨s.pool, s.singleClient, s.singleConnection,
            (h0, s.nextConnId) :: s.connections, s.nextConnId + 1⟩
            (by simpa using hp)
          rw [hstep]
          simp only [Nat.zero_add]
          rw [hlook] at this
          exact this

/-- Small helper: the state right after pool-mode `init` from a fresh
driver. -/
theorem init_pool_state (pc : ResourceConfig) (onC : Bool) :
    (PostgresDriver.init (.poolCfg pc onC) initState).1
      = ⟨some pc.handle, none, none, [], 0⟩ := by
  cases pc <;> rfl

/-! ## The claims -/

/-- Claim C1: for every `streamQuery` iteration that begins (the consumer
awaits at least once) and passes the preconditions (cursor configured,
valid positive integral `chunkSize`), the cursor's `close()` is invoked
exactly once when iteration ends, on every exit path — natural exhaustion,
early termination by the consumer, or an error thrown during any read
(all of which are covered by the universally quantified `rows`, `budget`
and `failAt`). -/
theorem streamQuery_closes_cursor_exactly_once {α : Type} (chunkSize : ℚ)
    (rows : List α) (budget failAt : Option Nat)
    (hb : budget ≠ some 0) (hc : chunkSize.isInt ∧ 0 < chunkSize) :
    ((PostgresConnection.streamQuery true chunkSize rows budget failAt).ops).count
        ClientOp.close = 1 ∧
    ((PostgresConnection.streamQuery true chunkSize rows budget failAt).ops).getLast?
        = some ClientOp.close := by
  obtain ⟨pre, hpre, hmem⟩ :=
    streamLoop_ops_shape chunkSize.num.toNat failAt rows budget 0
  unfold PostgresConnection.streamQuery
  rw [if_neg hb, if_neg (by simp), if_neg (by simp [hc.1, hc.2])]
  constructor
  · simp only [hpre]
    simp [List.count_cons, List.count_append, List.count_eq_zero.mpr hmem]
  · simp only [hpre]
    rw [← List.cons_append, List.getLast?_append_cons]
    rfl

/-- Witness for C1: a 5-row stream with `chunkSize = 2`, a consumer budget
of 2 batches and a read failure at the second read still closes the cursor
exactly once, as the final cursor operation. -/
theorem streamQuery_closes_cursor_exactly_once_witness :
    (some 2 : Option Nat) ≠ some 0 ∧ ((2 : ℚ).isInt ∧ 0 < (2 : ℚ)) ∧
    (((PostgresConnection.streamQuery true 2 ([1, 2, 3, 4, 5] : List Nat)
        (some 2) (some 1)).ops).count ClientOp.close = 1 ∧
     ((PostgresConnection.streamQuery true 2 ([1, 2, 3, 4, 5] : List Nat)
        (some 2) (some 1)).ops).getLast? = some ClientOp.close) :=
  ⟨by decide, by decide,
   streamQuery_closes_cursor_exactly_once 2 [1, 2, 3, 4, 5] (some 2) (some 1)
     (by decide) (by decide)⟩

/-- Claim C2: a fully consumed, error-free `streamQuery` with a positive
integer `chunkSize` reads up to `chunkSize` rows per step and yields one
batch per non-empty read — its batches are exactly the successive
`chunkSize`-slices of the row list (each non-empty, of size at most
`chunkSize`) — and terminates without error on the first zero-row read.
The `[2, 2, 1]` instance over five rows is the witness. -/
theorem streamQuery_yields_chunked_batches {α : Type} (c : Nat) (hc : 0 < c)
    (rows : List α) :
    (PostgresConnection.streamQuery true (c : ℚ) rows none none).batches
        = specChunks c rows ∧
    (PostgresConnection.streamQuery true (c : ℚ) rows none none).error = none ∧
    ∀ b ∈ (PostgresConnection.streamQuery true (c : ℚ) rows none none).batches,
      b ≠ [] ∧ b.length ≤ c := by
  have hint : ((c : ℚ)).isInt := by
    simp [Rat.isInt]
  have hpos : 0 < (c : ℚ) := by
    exact_mod_cast hc
  have hnum : ((c : ℚ)).num.toNat = c := by
    simp [Rat.num_natCast]
  unfold PostgresConnection.streamQuery
  rw [if_neg (by simp), if_neg (by simp), if_neg (by simp [hint, hpos])]
  rw [hnum]
  have hex := streamLoop_exhaust c rows 0
  refine ⟨by simp [hex.1], by simp [hex.2], ?_⟩
  intro b hb
  exact specChunks_mem c rows b (by simpa [hex.1] using hb)

/-- Witness for C2: with `chunkSize = 2` over a 5-row result the yielded
batch sizes are `[2, 2, 1]` and the sequence terminates without error. -/
theorem streamQuery_yields_chunked_batches_witness :
    0 < 2 ∧
    ((PostgresConnection.streamQuery true ((2 : ℕ) : ℚ)
        ([10, 20, 30, 40, 50] : List Nat) none none).batches
          = specChunks 2 [10, 20, 30, 40, 50] ∧
     (PostgresConnection.streamQuery true ((2 : ℕ) : ℚ)
        ([10, 20, 30, 40, 50] : List Nat) none none).error = none ∧
     ∀ b ∈ (PostgresConnection.streamQuery true ((2 : ℕ) : ℚ)
        ([10, 20, 30, 40, 50] : List Nat) none none).batches,
       b ≠ [] ∧ b.length ≤ 2) ∧
    (PostgresConnection.streamQuery true ((2 : ℕ) : ℚ)
        ([10, 20, 30, 40, 50] : List Nat) none none).batches.map List.length
      = [2, 2, 1] := by
  refine ⟨by decide, streamQuery_yields_chunked_batches 2 (by decide) _, ?_⟩
  rw [(streamQuery_yields_chunked_batches 2 (by decide)
        ([10, 20, 30, 40, 50] : List Nat)).1]
  simp [specChunks]

/-- Claim C3: in pool mode, two acquisitions that resolve to the same
native client handle return the same wrapper id, and the configured
`onCreateConnection` hook fires at most once per distinct native handle
over the whole run (only when a fresh wrapper is created, never for a
reused handle). -/
theorem pool_same_handle_same_wrapper_hook_once (pc : ResourceConfig)
    (onC : Bool) (handles : List Nat) (i j : Nat)
    (hsame : handles[i]? = handles[j]?) :
    (runAcquires (.poolCfg pc onC) handles
        (PostgresDriver.init (.poolCfg pc onC) initState).1).conns[i]?
      = (runAcquires (.poolCfg pc onC) handles
          (PostgresDriver.init (.poolCfg pc onC) initState).1).conns[j]? ∧
    ∀ h, ((runAcquires (.poolCfg pc onC) handles
        (PostgresDriver.init (.poolCfg pc onC) initState).1).events.countP
          (isOnCreateFor h)) ≤ 1 := by
  rw [init_pool_state]
  have hp : (⟨some pc.handle, none, none, [], 0⟩ : DriverState).pool
      = some pc.handle := rfl
  constructor
  · rw [runAcquires_conns_eq_lookup pc onC handles _ pc.handle hp i,
        runAcquires_conns_eq_lookup pc onC handles _ pc.handle hp j, hsame]
  · intro h
    have := runAcquires_onCreate_bound pc onC handles
      ⟨some pc.handle, none, none, [], 0⟩ pc.handle hp h
    simpa using this

/-- Witness for C3: three acquisitions where the pool hands out handles
`3, 4, 3` — the first and third return the same wrapper and no handle sees
the hook twice. -/
theorem pool_same_handle_same_wrapper_hook_once_witness :
    ([3, 4, 3] : List Nat)[0]? = ([3, 4, 3] : List Nat)[2]? ∧
    ((runAcquires (.poolCfg (.value 5) true) [3, 4, 3]
        (PostgresDriver.init (.poolCfg (.value 5) true) initState).1).conns[0]?
      = (runAcquires (.poolCfg (.value 5) true) [3, 4, 3]
          (PostgresDriver.init (.poolCfg (.value 5) true) initState).1).conns[2]? ∧
     ∀ h, ((runAcquires (.poolCfg (.value 5) true) [3, 4, 3]
        (PostgresDriver.init (.poolCfg (.value 5) true) initState).1).events.countP
          (isOnCreateFor h)) ≤ 1) :=
  ⟨by decide,
   pool_same_handle_same_wrapper_hook_once (.value 5) true [3, 4, 3] 0 2
     (by decide)⟩

/-- Claim C4: in single-client mode every acquisition returns the one
wrapper created by the first successful call (id 0 from a fresh driver),
and the lazy client factory is invoked at most once over the whole run. -/
theorem single_client_acquire_idempotent (cc : ResourceConfig)
    (handles : List Nat) :
    (runAcquires (.clientCfg cc) handles initState).conns
        = List.replicate handles.length 0 ∧
    ((runAcquires (.clientCfg cc) handles initState).events.count
        DriverEvent.factoryCall) ≤ 1 := by
  cases handles with
  | nil => exact ⟨rfl, by simp [runAcquires]⟩
  | cons h t =>
      have hacq : PostgresDriver.acquireConnection (.clientCfg cc) h initState
          = some ⟨⟨none, some cc.resolve.1, some 0, [], 1⟩, 0,
                  cc.resolve.2 ++ [DriverEvent.clientConnect]⟩ := by
        cases cc <;> rfl
      unfold runAcquires
      rw [hacq]
      dsimp only
      rw [runAcquires_client_cached cc t
        ⟨none, some cc.resolve.1, some 0, [], 1⟩ 0 rfl]
      constructor
      · simp [List.replicate_succ]
      · cases cc <;> simp [ResourceConfig.resolve, DriverEvent.factoryCall]

/-- Claim C5: a successful `executeQuery` carries an affected-row count
(an unbounded integer equal to the client's reported `rowCount`) exactly
when the reported command is `INSERT`, `UPDATE` or `DELETE`, and in every
case carries the returned rows (empty when the client reports none). -/
theorem executeQuery_classifies_by_command {O : Type} (r : PgCommandResult O) :
    (PostgresConnection.executeQuery r).numAffectedRows
      = (if r.command = "INSERT" ∨ r.command = "UPDATE" ∨ r.command = "DELETE"
         then some r.rowCount else none) ∧
    (PostgresConnection.executeQuery r).numUpdatedOrDeletedRows
      = (if r.command = "INSERT" ∨ r.command = "UPDATE" ∨ r.command = "DELETE"
         then some r.rowCount else none) ∧
    (PostgresConnection.executeQuery r).rows = r.rows.getD [] := by
  unfold PostgresConnection.executeQuery
  by_cases h : r.command = "INSERT" ∨ r.command = "UPDATE" ∨ r.command = "DELETE"
  · simp [h]
  · simp [h]

/-- Claim C6: once iteration begins, `streamQuery` without a configured
cursor fails with the configuration error, and with a cursor but an
invalid `chunkSize` (zero, negative, or non-integral) fails with the
validation error — in both cases yielding nothing and performing no
native client call (`ops = []`). -/
theorem streamQuery_validates_before_native_call {α : Type} (c c2 : ℚ)
    (rows : List α) (budget failAt : Option Nat) (hb : budget ≠ some 0)
    (hc2 : ¬(c2.isInt ∧ 0 < c2)) :
    PostgresConnection.streamQuery false c rows budget failAt
        = ⟨[], [], some StreamError.missingCursor⟩ ∧
    PostgresConnection.streamQuery true c2 rows budget failAt
        = ⟨[], [], some StreamError.invalidChunkSize⟩ := by
  constructor
  · unfold PostgresConnection.streamQuery
    rw [if_neg hb]
    simp
  · unfold PostgresConnection.streamQuery
    rw [if_neg hb, if_neg (by simp), if_pos hc2]

/-- Witness for C6: with `chunkSize = 3` but no cursor the configuration
error surfaces; with a cursor but the non-integral `chunkSize = 1/2` the
validation error surfaces; neither performs any native call. -/
theorem streamQuery_validates_before_native_call_witness :
    (none : Option Nat) ≠ some 0 ∧ ¬((mkRat 1 2).isInt ∧ 0 < mkRat 1 2) ∧
    (PostgresConnection.streamQuery false (3 : ℚ) ([7] : List Nat) none none
        = ⟨[], [], some StreamError.missingCursor⟩ ∧
     PostgresConnection.streamQuery true (mkRat 1 2) ([7] : List Nat) none none
        = ⟨[], [], some StreamError.invalidChunkSize⟩) := by
  refine ⟨by decide, by decide, ?_⟩
  have h := streamQuery_validates_before_native_call (3 : ℚ) (mkRat 1 2)
    ([7] : List Nat) none none (by decide) (by decide)
  exact h

/-- Claim C7: in pool mode (after `init` and any sequence of
acquisitions), `destroy()` clears the pool reference and then ends the
pool, so a second `destroy()` is a no-op: the pool is ended exactly once
across the two calls. -/
theorem pool_destroy_twice_closes_once (pc : ResourceConfig) (onC : Bool)
    (handles : List Nat) :
    (PostgresDriver.destroy
        (runAcquires (.poolCfg pc onC) handles
          (PostgresDriver.init (.poolCfg pc onC) initState).1).state).2
      = [DriverEvent.poolEnd pc.handle] ∧
    (PostgresDriver.destroy
        (runAcquires (.poolCfg pc onC) handles
          (PostgresDriver.init (.poolCfg pc onC) initState).1).state).1.pool
      = none ∧
    PostgresDriver.destroy
        (PostgresDriver.destroy
          (runAcquires (.poolCfg pc onC) handles
            (PostgresDriver.init (.poolCfg pc onC) initState).1).state).1
      = ((PostgresDriver.destroy
          (runAcquires (.poolCfg pc onC) handles
            (PostgresDriver.init (.poolCfg pc onC) initState).1).state).1, []) := by
  rw [init_pool_state]
  have hpres := runAcquires_pool_preserves pc onC handles
    ⟨some pc.handle, none, none, [], 0⟩ pc.handle rfl
  set s1 := (runAcquires (.poolCfg pc onC) handles
    ⟨some pc.handle, none, none, [], 0⟩).state with hs1
  have hpool : s1.pool = some pc.handle := hpres.1
  have hsc : s1.singleClient = none := hpres.2.1
  have hd1 : PostgresDriver.destroy s1
      = (⟨none, s1.singleClient, s1.singleConnection, s1.connections,
          s1.nextConnId⟩, [DriverEvent.poolEnd pc.handle]) := by
    unfold PostgresDriver.destroy
    rw [hsc, hpool]
  refine ⟨by rw [hd1], by rw [hd1], ?_⟩
  rw [hd1]
  unfold PostgresDriver.destroy
  rw [hsc]

/-- Counterexample to claim C8 as stated: calling `init()` twice with a
lazy pool factory invokes the factory twice — nothing memoizes the
resolution across calls. -/
theorem init_twice_invokes_factory_twice :
    ((PostgresDriver.init (.poolCfg (.factory 7) false) initState).2
      ++ (PostgresDriver.init (.poolCfg (.factory 7) false)
            (PostgresDriver.init (.poolCfg (.factory 7) false) initState).1).2).count
        DriverEvent.factoryCall = 2 := by
  decide

/-- Claim C8 (amended): each single call to `init()` in pool mode resolves
the pool handle, invoking the lazy factory at most once during that call;
under the intended lifecycle of at most one `init()` call the factory is
therefore invoked at most once. -/
theorem init_resolves_pool_per_call (pc : ResourceConfig) (onC : Bool)
    (s : DriverState) :
    (PostgresDriver.init (.poolCfg pc onC) s).1.pool = some pc.handle ∧
    ((PostgresDriver.init (.poolCfg pc onC) s).2.count
        DriverEvent.factoryCall) ≤ 1 := by
  cases pc <;> simp [PostgresDriver.init, ResourceConfig.resolve,
    ResourceConfig.handle]

/-- Claim C9: `dropConstraintNode.create(name)` returns a node of kind
`DropConstraintNode` holding exactly one child, the identifier node created
from `name` (the structure has no other child field; immutability is
intrinsic to the embedding), and `dropConstraintNode.is(n)` holds exactly
when `n.kind` equals `DropConstraintNode`. -/
theorem dropConstraintNode_create_and_is (name : String) (n : OperationNode) :
    (dropConstraintNode.create name).kind = "DropConstraintNode" ∧
    (dropConstraintNode.create name).constraintName = identifierNode.create name ∧
    (dropConstraintNode.is n = true ↔ n.kind = "DropConstraintNode") := by
  refine ⟨rfl, rfl, ?_⟩
  simp [dropConstraintNode.is]

/-- Claim C10: in single-client mode, after a successful first
acquisition, `destroy()` leaves the driver state untouched (the client
reference is never cleared) and ends the single client; a second
`destroy()` therefore ends it again rather than being a no-op. -/
theorem single_client_destroy_repeats_end (cc : ResourceConfig) (a : AcqResult)
    (ha : PostgresDriver.acquireConnection (.clientCfg cc) 0 initState
        = some a) :
    (PostgresDriver.destroy a.state).1 = a.state ∧
    (PostgresDriver.destroy a.state).2 = [DriverEvent.clientEnd cc.handle] ∧
    (PostgresDriver.destroy (PostgresDriver.destroy a.state).1).2
      = [DriverEvent.clientEnd cc.handle] := by
  have hacq : PostgresDriver.acquireConnection (.clientCfg cc) 0 initState
      = some ⟨⟨none, some cc.handle, some 0, [], 1⟩, 0,
              cc.resolve.2 ++ [DriverEvent.clientConnect]⟩ := by
    cases cc <;> rfl
  rw [hacq] at ha
  have ha2 : a = ⟨⟨none, some cc.handle, some 0, [], 1⟩, 0,
      cc.resolve.2 ++ [DriverEvent.clientConnect]⟩ := by
    exact (Option.some_injective _ ha).symm
  subst ha2
  exact ⟨rfl, rfl, rfl⟩

/-- Witness for C10: a concrete single-client driver (client handle 9)
acquired once; both the first and the second `destroy()` end client 9. -/
theorem single_client_destroy_repeats_end_witness :
    PostgresDriver.acquireConnection (.clientCfg (.value 9)) 0 initState
        = some ⟨⟨none, some 9, some 0, [], 1⟩, 0, [DriverEvent.clientConnect]⟩ ∧
    ((PostgresDriver.destroy
        (⟨⟨none, some 9, some 0, [], 1⟩, 0,
          [DriverEvent.clientConnect]⟩ : AcqResult).state).1
      = (⟨⟨none, some 9, some 0, [], 1⟩, 0,
          [DriverEvent.clientConnect]⟩ : AcqResult).state ∧
     (PostgresDriver.destroy
        (⟨⟨none, some 9, some 0, [], 1⟩, 0,
          [DriverEvent.clientConnect]⟩ : AcqResult).state).2
      = [DriverEvent.clientEnd (ResourceConfig.value 9).handle] ∧
     (PostgresDriver.destroy
        (PostgresDriver.destroy
          (⟨⟨none, some 9, some 0, [], 1⟩, 0,
            [DriverEvent.clientConnect]⟩ : AcqResult).state).1).2
      = [DriverEvent.clientEnd (ResourceConfig.value 9).handle]) :=
  ⟨by decide,
   single_client_destroy_repeats_end (.value 9)
     ⟨⟨none, some 9, some 0, [], 1⟩, 0, [DriverEvent.clientConnect]⟩
     (by decide)⟩
